import Mathlib

/-!
# Verification of the game catalog query-and-enrichment engine

Shallow embedding of the games route of the DAT257 catalog service:
the filter compiler (`POST /filter`), the DTO enrichment (`formatGames`)
and the batch played-resolution loop. Store-side query semantics
(`filterGames`, `getAverageRating`, …) live in service modules outside the
provided source; where needed they are modelled from the spec and marked so.
-/

namespace Catalog

/-- A Borrow record: only the `returned` flag matters to the read model. -/
structure Borrow where
  returned : Bool
deriving Repr, DecidableEq

/-- A PlayMark row as loaded with the game (`playStatus`): the marking
user's id, `none` standing for a JS `null`/`undefined` user id. -/
structure PlayMark where
  userId : Option String
deriving Repr, DecidableEq

/-- A stored Game record with its eagerly loaded relations, as consumed by
the route (`game.borrow`, `game.playStatus`). Dates are epoch timestamps. -/
structure Game where
  id : String
  name : String
  description : String
  platformName : String
  dateReleased : Int
  playtimeMinutes : Int
  playerMin : Int
  playerMax : Int
  location : String
  gameOwnerId : String
  borrow : List Borrow
  playStatus : List PlayMark
deriving Repr

/-- A `{ gte?, lte? }` bound object as built by the route for
`dateReleased`, `playerMin`, `playerMax` and `playtimeMinutes`. -/
structure Bound where
  gte : Option Int := none
  lte : Option Int := none
deriving Repr, DecidableEq

/-- A case-insensitive substring predicate, `{ contains, mode: 'insensitive' }`. -/
structure ContainsFilter where
  contains : String
deriving Repr, DecidableEq

/-- The `Filter` accumulator object the route builds field by field and
hands to `filterGames`. Absent fields impose no constraint. -/
structure Filter where
  name : Option ContainsFilter := none
  dateReleased : Option Bound := none
  playerMax : Option Bound := none
  playerMin : Option Bound := none
  platform : Option String := none
  playtimeMinutes : Option Bound := none
  location : Option ContainsFilter := none
  owner : Option String := none
deriving Repr, DecidableEq

/-- The validated body of `POST /filter` (after `filterGamesSchema`).
The zod schema makes every present string non-empty and every present
number ≥ 1, so JS truthiness of a present field coincides with presence:
we model fields as `Option`. Dates arrive as ISO strings and are compared
through `new Date(…)`; we model them by their epoch value. -/
structure FilterBody where
  name : Option String := none
  platform : Option String := none
  releaseBefore : Option Int := none
  releaseAfter : Option Int := none
  playtimeMin : Option Int := none
  playtimeMax : Option Int := none
  playerCount : Option Int := none
  owner : Option String := none
  location : Option String := none
deriving Repr

/-- The filter-compiler portion of `gameRouter.post('/filter')`: the
sequence of `if` statements that populates the `Filter` accumulator.
Each step mirrors one statement of the source, in source order; in
particular the `releaseAfter && releaseBefore` case overwrites the
single-bound `dateReleased` object with one combined two-sided object. -/
def compileFilter (body : FilterBody) : Filter :=
  let f : Filter := {}
  let f := match body.name with
    | some n => { f with name := some { contains := n } }
    | none => f
  let f := match body.releaseAfter with
    | some a => { f with dateReleased := some { gte := some a } }
    | none => f
  let f := match body.releaseBefore with
    | some b => { f with dateReleased := some { lte := some b } }
    | none => f
  let f := match body.releaseAfter, body.releaseBefore with
    | some a, some b => { f with dateReleased := some { lte := some b, gte := some a } }
    | _, _ => f
  let f := match body.playerCount with
    | some c => { f with playerMax := some { gte := some c }, playerMin := some { lte := some c } }
    | none => f
  let f := match body.platform with
    | some p => { f with platform := some p }
    | none => f
  let f := if body.playtimeMax.isSome || body.playtimeMin.isSome then
      { f with playtimeMinutes := some { gte := body.playtimeMin, lte := body.playtimeMax } }
    else f
  let f := match body.location with
    | some l => { f with location := some { contains := l } }
    | none => f
  f

/-- Case-insensitive substring test over character lists. -/
def charsContain (hay needle : List Char) : Bool :=
  (List.range (hay.length + 1)).any (fun i => needle.isPrefixOf (hay.drop i))

/-- Modelled from the spec: the store's case-insensitive `contains`
matching (`mode: 'insensitive'`), used by `filterGames` whose
implementation lives in `gameService.js`, outside the provided source. -/
def matchContains (cf : ContainsFilter) (s : String) : Bool :=
  charsContain (s.data.map Char.toLower) (cf.contains.data.map Char.toLower)

/-- A value satisfies a `{ gte?, lte? }` bound object when it is within
every present bound. -/
def matchBound (b : Bound) (v : Int) : Bool :=
  (match b.gte with | some g => decide (g ≤ v) | none => true) &&
  (match b.lte with | some l => decide (v ≤ l) | none => true)

/-- Modelled from the spec: the store-side matching of one compiled
`Filter` against a stored game (`filterGames` in `gameService.js` passes
the object as a conjunctive `where` clause; absent fields match all). -/
def matchesFilter (f : Filter) (g : Game) : Bool :=
  (match f.name with | some cf => matchContains cf g.name | none => true) &&
  (match f.dateReleased with | some b => matchBound b g.dateReleased | none => true) &&
  (match f.playerMax with | some b => matchBound b g.playerMax | none => true) &&
  (match f.playerMin with | some b => matchBound b g.playerMin | none => true) &&
  (match f.platform with | some p => g.platformName == p | none => true) &&
  (match f.playtimeMinutes with | some b => matchBound b g.playtimeMinutes | none => true) &&
  (match f.location with | some cf => matchContains cf g.location | none => true) &&
  (match f.owner with | some o => g.gameOwnerId == o | none => true)

/-- Modelled from the spec: `filterGames` returns exactly the stored games
matching the compiled predicate set, keeping store order. -/
def filterGames (f : Filter) (store : List Game) : List Game :=
  store.filter (matchesFilter f)

/-- The authenticated identity attached to the request (`req.user`);
only the external id `cid` is consumed by this route. -/
structure GammaUser where
  cid : String
deriving Repr, DecidableEq

/-- The external collaborators the route awaits, as one read-only snapshot:
`getGameOwnerNameFromId` (fallible: a rejected promise is an `.error`),
the Rating rows per game, `getUserRating`, and `getAccountFromCid`
(`none` when the cid resolves to no internal account, so that
`(await getAccountFromCid(cid))?.id` is `undefined`). -/
structure Env where
  ownerName : String → Except String String
  ratings : String → List ℚ
  userRating : String → String → Option ℚ
  accountFromCid : String → Option String

/-- Modelled from the spec: `getAverageRating` (in `ratingService.js`,
outside the provided source) returns the arithmetic mean of all Rating
scores for the game, or the defined empty value `none` when no ratings
exist. -/
def getAverageRating (env : Env) (gameId : String) : Option ℚ :=
  match env.ratings gameId with
  | [] => none
  | rs => some (rs.sum / rs.length)

/-- The enriched game DTO assembled by `formatGames`. `releaseDate` keeps
the epoch value; the source's `toISOString().split('T')[0]` rendering is
presentation-only and not modelled. `ratingUser = none` models the JS
`null`. -/
structure GameDTO where
  id : String
  name : String
  description : String
  platformName : String
  releaseDate : Int
  playtimeMinutes : Int
  playerMin : Int
  playerMax : Int
  location : String
  owner : String
  isBorrowed : Bool
  ratingAvg : Option ℚ
  ratingUser : Option ℚ
  isPlayed : Bool
deriving Repr

/-- One element of the `games.map` inside `formatGames`: assembly of a
single DTO, failing when the awaited owner-name lookup rejects. -/
def formatGame (env : Env) (user : Option GammaUser) (game : Game) :
    Except String GameDTO :=
  match env.ownerName game.gameOwnerId with
  | .error e => .error e
  | .ok ownerN => .ok
    { id := game.id
      name := game.name
      description := game.description
      platformName := game.platformName
      releaseDate := game.dateReleased
      playtimeMinutes := game.playtimeMinutes
      playerMin := game.playerMin
      playerMax := game.playerMax
      location := game.location
      owner := ownerN
      isBorrowed := (game.borrow.filter (fun b => !b.returned)).length > 0
      ratingAvg := getAverageRating env game.id
      ratingUser := match user with
        | some u => env.userRating game.id u.cid
        | none => none
      isPlayed := false }

/-- The batch assembly `formatGames`: `Promise.all` over the per-game assemblies — the first
rejected lookup rejects the whole batch, otherwise the DTO list in input
order. -/
def formatGames (env : Env) (games : List Game) (user : Option GammaUser) :
    Except String (List GameDTO) :=
  match games with
  | [] => .ok []
  | g :: gs =>
    match formatGame env user g with
    | .error e => .error e
    | .ok d =>
      match formatGames env gs user with
      | .error e => .error e
      | .ok ds => .ok (d :: ds)

/-- JS loose equality `==` restricted to the types that meet in
`played.userId == uid`: `string | null` against `string | undefined`,
with `none` standing for `null`/`undefined` (which are `==`-equal). -/
def looseEq : Option String → Option String → Bool
  | none, none => true
  | some a, some b => a == b
  | _, _ => false

/-- The post-format loop of the filter route: for each index `i`,
`formattedGames[i].isPlayed = games[i].playStatus.filter(p => p.userId == uid).length > 0`. -/
def resolvePlayed (uid : Option String) (games : List Game)
    (dtos : List GameDTO) : List GameDTO :=
  List.zipWith
    (fun g d =>
      { d with isPlayed :=
          (g.playStatus.filter (fun p => looseEq p.userId uid)).length > 0 })
    games dtos

/-- The whole `POST /filter` handler after body validation: compile the
filter, query the store, format, and — when an identity is present —
resolve the batch played flags against `getAccountFromCid`. -/
def filterRoute (env : Env) (store : List Game) (body : FilterBody)
    (user : Option GammaUser) : Except String (List GameDTO) :=
  match formatGames env (filterGames (compileFilter body) store) user with
  | .error e => .error e
  | .ok dtos =>
    match user with
    | none => .ok dtos
    | some u => .ok (resolvePlayed (env.accountFromCid u.cid)
        (filterGames (compileFilter body) store) dtos)

section Helpers

/-- A filtered list is non-empty exactly when some element satisfies the
predicate; packaged for the `length > 0` idiom of the route. -/
theorem length_filter_pos_iff {α : Type} (l : List α) (f : α → Bool) :
    0 < (l.filter f).length ↔ ∃ a ∈ l, f a = true := by
  rw [List.length_pos, Ne, List.filter_eq_nil_iff]
  push_neg
  simp

/-- The date bounds of the compiled filter, in every case of the two
optional inputs. -/
theorem compileFilter_dateReleased (body : FilterBody) :
    (compileFilter body).dateReleased =
      match body.releaseAfter, body.releaseBefore with
      | some a, some b => some { gte := some a, lte := some b }
      | some a, none => some { gte := some a }
      | none, some b => some { lte := some b }
      | none, none => none := by
  rcases body with ⟨n, p, rb, ra, tmin, tmax, pc, ow, loc⟩
  cases n <;> cases p <;> cases rb <;> cases ra <;> cases tmin <;> cases tmax <;>
    cases pc <;> cases loc <;> rfl

end Helpers

/-- C3: compiling the empty filter body (no optional field present) yields
the unconstrained predicate set: it matches every stored game, so
`filterGames` returns the store unchanged. -/
theorem empty_filter_matches_all :
    (∀ g : Game, matchesFilter (compileFilter {}) g = true) ∧
    (∀ store : List Game, filterGames (compileFilter {}) store = store) := by
  constructor
  · intro g
    rfl
  · intro store
    simp [filterGames, List.filter_eq_self]
    intro a _
    rfl
/-- C1: with both `releaseAfter` and `releaseBefore` supplied, the compiled
`dateReleased` predicate is the single combined object carrying both the
inclusive lower and upper bound (neither is dropped), and when
`releaseAfter > releaseBefore` that predicate matches no game at all —
`filterGames` returns the empty list, with no error raised (the compiler
is total). -/
theorem both_dates_combined (body : FilterBody) (a b : Int)
    (hA : body.releaseAfter = some a) (hB : body.releaseBefore = some b) :
    (compileFilter body).dateReleased = some { gte := some a, lte := some b } ∧
    (b < a →
      (∀ g : Game, matchesFilter (compileFilter body) g = false) ∧
      (∀ store : List Game, filterGames (compileFilter body) store = [])) := by
  have hd : (compileFilter body).dateReleased = some { gte := some a, lte := some b } := by
    rw [compileFilter_dateReleased, hA, hB]
  refine ⟨hd, fun hba => ?_⟩
  have hfalse : ∀ g : Game, matchesFilter (compileFilter body) g = false := by
    intro g
    have hmb : matchBound { gte := some a, lte := some b } g.dateReleased = false := by
      simp only [matchBound, Bool.and_eq_false_iff, decide_eq_false_iff_not]
      omega
    simp [matchesFilter, hd, hmb]
  refine ⟨hfalse, fun store => ?_⟩
  simp [filterGames, List.filter_eq_nil_iff]
  intro g _
  simp [hfalse g]

/-- Witness for `both_dates_combined`: a concrete body with
`releaseAfter = 10 > 5 = releaseBefore` and a concrete game/store. -/
theorem both_dates_combined_witness :
    (compileFilter { releaseAfter := some 10, releaseBefore := some 5 }).dateReleased =
      some { gte := some 10, lte := some 5 } ∧
    ((5 : Int) < 10 →
      (∀ g : Game, matchesFilter (compileFilter { releaseAfter := some 10, releaseBefore := some 5 }) g = false) ∧
      (∀ store : List Game, filterGames (compileFilter { releaseAfter := some 10, releaseBefore := some 5 }) store = [])) :=
  both_dates_combined { releaseAfter := some 10, releaseBefore := some 5 } 10 5 rfl rfl

/-- The scenario games of the spec's playerCount example: player ranges
(2,6), (5,5) and (1,3). -/
def scenarioGameA : Game :=
  { id := "A", name := "A", description := "", platformName := "",
    dateReleased := 0, playtimeMinutes := 1, playerMin := 2, playerMax := 6,
    location := "", gameOwnerId := "o", borrow := [], playStatus := [] }

def scenarioGameB : Game :=
  { scenarioGameA with id := "B", name := "B", playerMin := 5, playerMax := 5 }

def scenarioGameC : Game :=
  { scenarioGameA with id := "C", name := "C", playerMin := 1, playerMax := 3 }

/-- C5 counterexample: filtering `{playerCount: 4}` over games with player
ranges (2,6), (5,5) and (1,3) returns only the first game, not the first
two as claimed — the (5,5) game fails `playerMin ≤ 4`. -/
theorem playerCount_scenario_counterexample :
    (filterGames (compileFilter { playerCount := some 4 })
        [scenarioGameA, scenarioGameB, scenarioGameC]).map Game.id = ["A"] ∧
    ¬ (filterGames (compileFilter { playerCount := some 4 })
        [scenarioGameA, scenarioGameB, scenarioGameC]).map Game.id = ["A", "B"] := by
  constructor
  · rfl
  · decide

/-- C5 (amended): a candidate matches the compiled playerCount predicate
iff `playerMin ≤ playerCount ≤ playerMax`; the compiled filter carries
`playerMax ≥ c` and `playerMin ≤ c`; and the spec's scenario
(`{playerCount: 4}` over ranges (2,6), (5,5), (1,3)) returns exactly the
FIRST game only. -/
theorem playerCount_range_iff :
    (∀ (body : FilterBody) (c : Int), body.playerCount = some c →
      (compileFilter body).playerMax = some { gte := some c } ∧
      (compileFilter body).playerMin = some { lte := some c }) ∧
    (∀ (c : Int) (g : Game),
      (matchesFilter (compileFilter { playerCount := some c }) g = true ↔
        (g.playerMin ≤ c ∧ c ≤ g.playerMax))) ∧
    (filterGames (compileFilter { playerCount := some 4 })
        [scenarioGameA, scenarioGameB, scenarioGameC]).map Game.id = [scenarioGameA.id] := by
  refine ⟨?_, ?_, rfl⟩
  · intro body c h
    rcases body with ⟨n, p, rb, ra, tmin, tmax, pc, ow, loc⟩
    simp only at h
    subst h
    cases n <;> cases p <;> cases rb <;> cases ra <;> cases tmin <;> cases tmax <;>
      cases loc <;> exact ⟨rfl, rfl⟩
  · intro c g
    show (matchesFilter
      { playerMax := some { gte := some c }, playerMin := some { lte := some c } } g = true ↔ _)
    simp only [matchesFilter, matchBound, Bool.and_eq_true, decide_eq_true_eq,
      true_and, and_true]
    omega

/-- Witness for `playerCount_range_iff`: the compiled components at the
concrete body `{playerCount: 4}`. -/
theorem playerCount_range_iff_witness :
    (compileFilter { playerCount := some 4 }).playerMax = some { gte := some 4 } ∧
    (compileFilter { playerCount := some 4 }).playerMin = some { lte := some 4 } :=
  playerCount_range_iff.1 { playerCount := some 4 } 4 rfl

/-- C2: for every successfully assembled DTO, `isBorrowed` is true iff at
least one Borrow record of the game has `returned = false`; with zero
Borrow records or all returned it is false. `formatGame` is a pure
function of the read snapshot, so computing it performs no writes. -/
theorem isBorrowed_iff_open_borrow (env : Env) (user : Option GammaUser)
    (game : Game) (dto : GameDTO)
    (h : formatGame env user game = .ok dto) :
    (dto.isBorrowed = true ↔ ∃ b ∈ game.borrow, b.returned = false) ∧
    (game.borrow = [] → dto.isBorrowed = false) ∧
    ((∀ b ∈ game.borrow, b.returned = true) → dto.isBorrowed = false) := by
  have hib : dto.isBorrowed =
      decide (0 < (game.borrow.filter (fun b => !b.returned)).length) := by
    unfold formatGame at h
    cases hown : env.ownerName game.gameOwnerId with
    | error e => rw [hown] at h; exact absurd h (by simp)
    | ok s =>
      rw [hown] at h
      cases h
      rfl
  have hiff : dto.isBorrowed = true ↔ ∃ b ∈ game.borrow, b.returned = false := by
    rw [hib, decide_eq_true_eq, length_filter_pos_iff]
    constructor
    · rintro ⟨b, hb, hr⟩
      exact ⟨b, hb, by revert hr; cases b.returned <;> simp⟩
    · rintro ⟨b, hb, hr⟩
      exact ⟨b, hb, by rw [hr]; rfl⟩
  refine ⟨hiff, fun hnil => ?_, fun hall => ?_⟩
  · rw [hib, hnil]
    rfl
  · cases hbv : dto.isBorrowed
    · rfl
    · obtain ⟨b, hb, hr⟩ := hiff.mp hbv
      rw [hall b hb] at hr
      cases hr
/-- A concrete read snapshot used by the witnesses: owner lookups succeed,
no ratings, no user rating, the cid resolves to account "u". -/
def demoEnv : Env :=
  { ownerName := fun _ => .ok "Owner", ratings := fun _ => [],
    userRating := fun _ _ => none, accountFromCid := fun _ => some "u" }

/-- A concrete game with one open borrow and one play mark by "u". -/
def demoGame : Game :=
  { id := "g", name := "G", description := "d", platformName := "Steam",
    dateReleased := 7, playtimeMinutes := 30, playerMin := 1, playerMax := 4,
    location := "Hubben", gameOwnerId := "o", borrow := [{ returned := false }],
    playStatus := [{ userId := some "u" }] }

/-- The DTO `formatGame` assembles for `demoGame` under `demoEnv`. -/
def demoDto : GameDTO :=
  { id := "g", name := "G", description := "d", platformName := "Steam",
    releaseDate := 7, playtimeMinutes := 30, playerMin := 1, playerMax := 4,
    location := "Hubben", owner := "Owner", isBorrowed := true,
    ratingAvg := none, ratingUser := none, isPlayed := false }

/-- Witness for `isBorrowed_iff_open_borrow` at the concrete snapshot. -/
theorem isBorrowed_iff_open_borrow_witness :
    (demoDto.isBorrowed = true ↔ ∃ b ∈ demoGame.borrow, b.returned = false) ∧
    (demoGame.borrow = [] → demoDto.isBorrowed = false) ∧
    ((∀ b ∈ demoGame.borrow, b.returned = true) → demoDto.isBorrowed = false) :=
  isBorrowed_iff_open_borrow demoEnv none demoGame demoDto rfl

/-- C7: the rating aggregator returns `none` (the defined empty value)
exactly when the game has no Rating records — never a division by zero —
and any returned mean `q` satisfies `q · #ratings = Σ ratings`. As a pure
function of the snapshot it is deterministic and raises no exception. -/
theorem getAverageRating_spec (env : Env) (gid : String) :
    (getAverageRating env gid = none ↔ env.ratings gid = []) ∧
    (∀ q : ℚ, getAverageRating env gid = some q →
      q * ((env.ratings gid).length : ℚ) = (env.ratings gid).sum) := by
  constructor
  · unfold getAverageRating
    cases hr : env.ratings gid <;> simp
  · intro q hq
    unfold getAverageRating at hq
    cases hr : env.ratings gid with
    | nil => rw [hr] at hq; cases hq
    | cons r rs =>
      rw [hr] at hq
      have hq2 : (r :: rs).sum / ((r :: rs).length : ℚ) = q := by
        exact Option.some.inj hq
      have hlen : ((r :: rs).length : ℚ) ≠ 0 :=
        Nat.cast_ne_zero.mpr (Nat.succ_ne_zero rs.length)
      rw [← hq2, div_mul_cancel₀ _ hlen]

/-- A snapshot with two ratings 2 and 4 for every game. -/
def ratedEnv : Env :=
  { ownerName := fun _ => .ok "Owner", ratings := fun _ => [2, 4],
    userRating := fun _ _ => none, accountFromCid := fun _ => none }

/-- Witness for `getAverageRating_spec`: the mean of ratings [2, 4] is 3,
and 3 · 2 = 2 + 4. -/
theorem getAverageRating_spec_witness :
    (3 : ℚ) * ((ratedEnv.ratings "g").length : ℚ) = (ratedEnv.ratings "g").sum :=
  (getAverageRating_spec ratedEnv "g").2 3 (by
    unfold getAverageRating ratedEnv
    simp [List.sum_cons, List.sum_nil]
    norm_num)
section Helpers2

/-- The assembly preserves length and positions: shared helper. -/
theorem formatGames_ok_get (env : Env) (user : Option GammaUser) :
    ∀ (games : List Game) (dtos : List GameDTO),
      formatGames env games user = .ok dtos →
      dtos.length = games.length ∧
      ∀ i (hg : i < games.length) (hd : i < dtos.length),
        formatGame env user (games.get ⟨i, hg⟩) = .ok (dtos.get ⟨i, hd⟩)
  | [], dtos, h => by
    cases h
    exact ⟨rfl, fun i hg _ => absurd hg (Nat.not_lt_zero i)⟩
  | g :: gs, dtos, h => by
    unfold formatGames at h
    cases hg : formatGame env user g with
    | error e => rw [hg] at h; cases h
    | ok d =>
      rw [hg] at h
      cases hrest : formatGames env gs user with
      | error e => rw [hrest] at h; cases h
      | ok ds =>
        rw [hrest] at h
        cases h
        obtain ⟨hlen, hpos⟩ := formatGames_ok_get env user gs ds hrest
        refine ⟨by simp [hlen], fun i hgi hdi => ?_⟩
        cases i with
        | zero => exact hg
        | succ j =>
          exact hpos j (Nat.lt_of_succ_lt_succ hgi) (Nat.lt_of_succ_lt_succ hdi)

end Helpers2

/-- C8: DTO assembly succeeds exactly when the owner-name lookup succeeds
for every game of the batch; one failing lookup makes `formatGames` fail
as a whole — no result list (and hence no partial row) is produced. -/
theorem owner_failure_aborts (env : Env) (user : Option GammaUser)
    (games : List Game) :
    ((∃ dtos, formatGames env games user = .ok dtos) ↔
      ∀ g ∈ games, ∃ s, env.ownerName g.gameOwnerId = .ok s) ∧
    (∀ g ∈ games, ∀ e, env.ownerName g.gameOwnerId = .error e →
      ∀ dtos, formatGames env games user ≠ .ok dtos) := by
  have main : ∀ gs : List Game,
      (∃ dtos, formatGames env gs user = .ok dtos) ↔
        ∀ g ∈ gs, ∃ s, env.ownerName g.gameOwnerId = .ok s := by
    intro gs
    induction gs with
    | nil => exact ⟨fun _ => by simp, fun _ => ⟨[], rfl⟩⟩
    | cons g rest ih =>
      constructor
      · rintro ⟨dtos, h⟩
        unfold formatGames at h
        cases hg : formatGame env user g with
        | error e => rw [hg] at h; cases h
        | ok d =>
          rw [hg] at h
          cases hrest : formatGames env rest user with
          | error e => rw [hrest] at h; cases h
          | ok ds =>
            intro x hx
            rcases List.mem_cons.mp hx with hx | hx
            · subst hx
              unfold formatGame at hg
              cases hown : env.ownerName x.gameOwnerId with
              | error e => rw [hown] at hg; cases hg
              | ok s => exact ⟨s, rfl⟩
            · exact (ih.mp ⟨ds, hrest⟩) x hx
      · intro hall
        obtain ⟨s, hs⟩ := hall g (List.mem_cons_self g rest)
        obtain ⟨ds, hds⟩ := ih.mpr (fun x hx => hall x (List.mem_cons_of_mem g hx))
        cases hg : formatGame env user g with
        | error e =>
          unfold formatGame at hg
          rw [hs] at hg
          cases hg
        | ok d =>
          refine ⟨d :: ds, ?_⟩
          unfold formatGames
          rw [hg, hds]
  refine ⟨main games, fun g hg e he dtos hok => ?_⟩
  obtain ⟨s, hs⟩ := (main games).mp ⟨dtos, hok⟩ g hg
  rw [he] at hs
  cases hs

/-- A snapshot whose owner lookup always fails. -/
def failingEnv : Env :=
  { ownerName := fun _ => .error "owner lookup failed", ratings := fun _ => [],
    userRating := fun _ _ => none, accountFromCid := fun _ => none }

/-- Witness for `owner_failure_aborts`: under `failingEnv` the batch
`[demoGame]` yields no result list. -/
theorem owner_failure_aborts_witness :
    ∀ dtos, formatGames failingEnv [demoGame] none ≠ .ok dtos :=
  (owner_failure_aborts failingEnv none [demoGame]).2 demoGame
    (List.mem_cons_self demoGame []) "owner lookup failed" rfl
/-- C9: `formatGames` maps positionally — on success the DTO list has the
length of the input list and its i-th element is exactly the assembly of
the i-th input game. This is the invariant that lets the filter route
attach `formattedGames[i].isPlayed` from `games[i].playStatus` to the
right game. -/
theorem formatGames_preserves_positions (env : Env) (user : Option GammaUser)
    (games : List Game) (dtos : List GameDTO)
    (h : formatGames env games user = .ok dtos) :
    dtos.length = games.length ∧
    ∀ i (hg : i < games.length) (hd : i < dtos.length),
      formatGame env user (games.get ⟨i, hg⟩) = .ok (dtos.get ⟨i, hd⟩) :=
  formatGames_ok_get env user games dtos h

/-- Witness for `formatGames_preserves_positions` at the concrete
snapshot: `[demoGame]` formats to `[demoDto]`. -/
theorem formatGames_preserves_positions_witness :
    ([demoDto] : List GameDTO).length = ([demoGame] : List Game).length ∧
    ∀ i (hg : i < ([demoGame] : List Game).length)
      (hd : i < ([demoDto] : List GameDTO).length),
      formatGame demoEnv none (([demoGame] : List Game).get ⟨i, hg⟩) =
        .ok (([demoDto] : List GameDTO).get ⟨i, hd⟩) :=
  formatGames_preserves_positions demoEnv none [demoGame] [demoDto] rfl

section Helpers3

/-- Every DTO assembled for an anonymous request carries the defaults
`isPlayed = false` and `ratingUser = none`: shared helper. -/
theorem formatGames_anon (env : Env) :
    ∀ (games : List Game) (dtos : List GameDTO),
      formatGames env games none = .ok dtos →
      ∀ d ∈ dtos, d.isPlayed = false ∧ d.ratingUser = none
  | [], dtos, h => by
    cases h
    intro d hd
    cases hd
  | g :: gs, dtos, h => by
    unfold formatGames at h
    cases hg : formatGame env none g with
    | error e => rw [hg] at h; cases h
    | ok d0 =>
      rw [hg] at h
      cases hrest : formatGames env gs none with
      | error e => rw [hrest] at h; cases h
      | ok ds =>
        rw [hrest] at h
        cases h
        intro d hd
        rcases List.mem_cons.mp hd with hd | hd
        · subst hd
          unfold formatGame at hg
          cases hown : env.ownerName g.gameOwnerId with
          | error e => rw [hown] at hg; cases hg
          | ok s =>
            rw [hown] at hg
            cases hg
            exact ⟨rfl, rfl⟩
        · exact formatGames_anon env gs ds hrest d hd

end Helpers3

/-- C6: with no authenticated identity, every DTO produced — both directly
by `formatGames` and by the whole filter route — has `isPlayed = false`
and `ratingUser = none`, whatever the PlayMark and Rating stores hold. -/
theorem anonymous_defaults (env : Env) (games store : List Game)
    (body : FilterBody) (dtos dtos2 : List GameDTO)
    (h1 : formatGames env games none = .ok dtos)
    (h2 : filterRoute env store body none = .ok dtos2) :
    (∀ d ∈ dtos, d.isPlayed = false ∧ d.ratingUser = none) ∧
    (∀ d ∈ dtos2, d.isPlayed = false ∧ d.ratingUser = none) := by
  refine ⟨formatGames_anon env games dtos h1, ?_⟩
  unfold filterRoute at h2
  cases hfmt : formatGames env (filterGames (compileFilter body) store) none with
  | error e => rw [hfmt] at h2; cases h2
  | ok ds =>
    rw [hfmt] at h2
    cases h2
    exact formatGames_anon env _ _ hfmt

/-- Witness for `anonymous_defaults`: the concrete snapshot, the one-game
store and the empty filter body. -/
theorem anonymous_defaults_witness :
    (∀ d ∈ ([demoDto] : List GameDTO), d.isPlayed = false ∧ d.ratingUser = none) ∧
    (∀ d ∈ ([demoDto] : List GameDTO), d.isPlayed = false ∧ d.ratingUser = none) :=
  anonymous_defaults demoEnv [demoGame] [demoGame] {} [demoDto] [demoDto] rfl rfl
section Helpers4

/-- JS `==` of a mark's user id against a resolved account id: true
exactly for that id. -/
theorem looseEq_some_iff (o : Option String) (u : String) :
    looseEq o (some u) = true ↔ o = some u := by
  cases o with
  | none => simp [looseEq]
  | some a => simp [looseEq]

/-- The per-row played flag computed by the loop equals membership of the
resolved account among the row's marks. -/
theorem played_flag_eq (uid : String) (g : Game) :
    (decide ((g.playStatus.filter (fun p => looseEq p.userId (some uid))).length > 0)) =
      decide (∃ p ∈ g.playStatus, p.userId = some uid) := by
  rw [decide_eq_decide, gt_iff_lt, length_filter_pos_iff]
  constructor
  · rintro ⟨p, hp, hq⟩
    exact ⟨p, hp, (looseEq_some_iff p.userId uid).mp hq⟩
  · rintro ⟨p, hp, hq⟩
    exact ⟨p, hp, (looseEq_some_iff p.userId uid).mpr hq⟩

end Helpers4

/-- C4: the batch played-resolution over `N` formatted rows marks exactly
the rows whose game carries a PlayMark of the resolved account: the
resulting `isPlayed` column is the pointwise mark-membership indicator of
the game column, for every batch (including the empty one) and whatever
order the batch is in — row `i` is decided by game `i` alone. -/
theorem batch_played_exact (uid : String) :
    ∀ (games : List Game) (dtos : List GameDTO),
      dtos.length = games.length →
      (resolvePlayed (some uid) games dtos).length = games.length ∧
      (resolvePlayed (some uid) games dtos).map GameDTO.isPlayed =
        games.map (fun g => decide (∃ p ∈ g.playStatus, p.userId = some uid))
  | [], dtos, h => by
    cases dtos with
    | nil => exact ⟨rfl, rfl⟩
    | cons d ds => cases h
  | g :: gs, dtos, h => by
    cases dtos with
    | nil => cases h
    | cons d ds =>
      obtain ⟨hlen, hmap⟩ :=
        batch_played_exact uid gs ds (Nat.succ.inj h)
      refine ⟨?_, ?_⟩
      · show (resolvePlayed (some uid) gs ds).length + 1 = gs.length + 1
        rw [hlen]
      · show (decide ((g.playStatus.filter (fun p => looseEq p.userId (some uid))).length > 0))
            :: (resolvePlayed (some uid) gs ds).map GameDTO.isPlayed =
          (decide (∃ p ∈ g.playStatus, p.userId = some uid))
            :: gs.map (fun g => decide (∃ p ∈ g.playStatus, p.userId = some uid))
        rw [hmap, played_flag_eq]

/-- Witness for `batch_played_exact`: the one-row batch `[demoGame]`
with account "u", which holds the game's single mark. -/
theorem batch_played_exact_witness :
    (resolvePlayed (some "u") [demoGame] [demoDto]).length = ([demoGame] : List Game).length ∧
    (resolvePlayed (some "u") [demoGame] [demoDto]).map GameDTO.isPlayed =
      ([demoGame] : List Game).map
        (fun g => decide (∃ p ∈ g.playStatus, p.userId = some "u")) :=
  batch_played_exact "u" [demoGame] [demoDto] rfl
section Helpers5

/-- With an unresolved account (`uid = undefined`), a row whose marks all
carry a real user id gets `isPlayed = false`: shared helper over the
played-resolution loop. -/
theorem resolvePlayed_none_no_null_marks :
    ∀ (games : List Game) (ds : List GameDTO),
      ∀ gd ∈ List.zip games (resolvePlayed none games ds),
        gd.1.playStatus.all (fun p => p.userId.isSome) = true →
        gd.2.isPlayed = false
  | [], ds => by
    intro gd hgd
    cases hgd
  | g :: gs, [] => by
    intro gd hgd
    cases hgd
  | g :: gs, d :: ds => by
    intro gd hgd hall
    simp only [resolvePlayed, List.zipWith, List.zip] at hgd
    rcases List.mem_cons.mp hgd with h | h
    · subst h
      have hnil : g.playStatus.filter (fun p => looseEq p.userId none) = [] := by
        rw [List.filter_eq_nil_iff]
        intro p hp
        have hsome := List.all_eq_true.mp hall p hp
        cases hu : p.userId with
        | none => rw [hu] at hsome; cases hsome
        | some a => simp [looseEq]
      show (decide ((g.playStatus.filter (fun p => looseEq p.userId none)).length > 0)) = false
      rw [hnil]
      rfl
    · exact resolvePlayed_none_no_null_marks gs ds gd h hall

end Helpers5

/-- C10: when the authenticated cid resolves to no internal account, the
filter request still succeeds (formatting permitting) — the unresolved
account is treated as having no marks, not as an error — and every row
whose game has no PlayMark with a null user id ends with
`isPlayed = false`. -/
theorem unresolved_account_no_marks (env : Env) (store : List Game)
    (body : FilterBody) (u : GammaUser) (ds : List GameDTO)
    (hacc : env.accountFromCid u.cid = none)
    (hfmt : formatGames env (filterGames (compileFilter body) store) (some u) = .ok ds) :
    ∃ dtos, filterRoute env store body (some u) = .ok dtos ∧
      dtos.length = (filterGames (compileFilter body) store).length ∧
      ∀ gd ∈ List.zip (filterGames (compileFilter body) store) dtos,
        gd.1.playStatus.all (fun p => p.userId.isSome) = true →
        gd.2.isPlayed = false := by
  refine ⟨resolvePlayed none (filterGames (compileFilter body) store) ds, ?_, ?_, ?_⟩
  · unfold filterRoute
    rw [hfmt]
    show Except.ok (resolvePlayed (env.accountFromCid u.cid)
        (filterGames (compileFilter body) store) ds) =
      Except.ok (resolvePlayed none (filterGames (compileFilter body) store) ds)
    rw [hacc]
  · have hlen := (formatGames_ok_get env (some u) _ ds hfmt).1
    simp [resolvePlayed, List.length_zipWith, hlen]
  · exact resolvePlayed_none_no_null_marks (filterGames (compileFilter body) store) ds

/-- A game carrying one real-user mark and one null-user mark would flip
the flag even for an unresolved account; the witness game has only the
real mark. -/
def demoEnvNoAccount : Env :=
  { ownerName := fun _ => .ok "Owner", ratings := fun _ => [],
    userRating := fun _ _ => none, accountFromCid := fun _ => none }

/-- Witness for `unresolved_account_no_marks`: concrete snapshot with an
unresolving cid, the one-game store and the empty filter body. -/
theorem unresolved_account_no_marks_witness :
    ∃ dtos, filterRoute demoEnvNoAccount [demoGame] {} (some { cid := "x" }) = .ok dtos ∧
      dtos.length = (filterGames (compileFilter {}) [demoGame]).length ∧
      ∀ gd ∈ List.zip (filterGames (compileFilter {}) [demoGame]) dtos,
        gd.1.playStatus.all (fun p => p.userId.isSome) = true →
        gd.2.isPlayed = false :=
  unresolved_account_no_marks demoEnvNoAccount [demoGame] {} { cid := "x" }
    [demoDto] rfl rfl
end Catalog
